import Mathlib

/-!
Verification development for the XpediaPart LKQ scraper pipeline.

This file gives a shallow embedding, in Lean 4, of the core
scrape-paginate-enrich-normalize pipeline of the repository:

* the generic retry wrapper (utils/scraper-utils.js, function retry);
* the pagination loops (scrapers/lkq/index.js, fetchProductsByCategory and
  fetchProductsByUrl);
* the detail-enrichment batcher (fetchProductDetails, and the chunk helper
  from utils/scraper-utils.js);
* the two variants of the item-to-record mapper (scrapers/lkq/mapper.js and
  the duplicate embedded at the bottom of scrapers/lkq/index.js);
* the orchestrator (LkqScraper.scrape);
* the header-sanitising logger of the catalog client (api.js,
  makeApiRequest) and the cookie-printing log lines of the cookie
  extraction script.

JavaScript dynamic values are modelled by the small inductive type JSVal;
network effects are modelled by explicit oracles (functions from a call
sequence number to a result); potentially non-terminating loops are
modelled with a fuel parameter, fuel exhaustion returning none.
-/

/-- A JavaScript value, restricted to the shapes the scraper manipulates. -/
inductive JSVal : Type where
  | undef : JSVal
  | null : JSVal
  | bool (b : Bool) : JSVal
  | num (n : Int) : JSVal
  | str (s : String) : JSVal
deriving DecidableEq

/-- JavaScript truthiness for JSVal. -/
def jsTruthy : JSVal → Bool
  | JSVal.undef => false
  | JSVal.null => false
  | JSVal.bool b => b
  | JSVal.num n => decide (n ≠ 0)
  | JSVal.str s => decide (s ≠ "")

/-- JavaScript a || b on dynamic values. -/
def jsOr (a b : JSVal) : JSVal := if jsTruthy a then a else b

/-- Reading a possibly-absent property: absent is undefined. -/
def optJS : Option JSVal → JSVal
  | none => JSVal.undef
  | some v => v

/-- JavaScript a || b on string-typed values (empty string is falsy). -/
def strOr (a b : String) : String := if a = "" then b else a

/-- Reading a possibly-absent string property, with absent read as ''.
Matches the pervasive (x || '') idiom for string fields. -/
def optStr : Option String → String
  | none => ""
  | some s => s

/-- String conversion as done by template-literal interpolation. -/
def jsToDisplay : JSVal → String
  | JSVal.undef => "undefined"
  | JSVal.null => "null"
  | JSVal.bool b => if b then "true" else "false"
  | JSVal.num n => toString n
  | JSVal.str s => s

/-- Value of a decimal digit list, most significant first. -/
def digitsVal (acc : Nat) : List Char → Nat
  | [] => acc
  | c :: cs => digitsVal (acc * 10 + (c.toNat - '0'.toNat)) cs

/-- parseInt(s, 10) on a string: optional leading whitespace, optional
sign, then a maximal run of decimal digits; none models NaN. -/
def parseIntStr (s : String) : Option Int :=
  let cs := s.toList.dropWhile Char.isWhitespace
  let (neg, rest) : Bool × List Char :=
    match cs with
    | '-' :: cs2 => (true, cs2)
    | '+' :: cs2 => (false, cs2)
    | _ => (false, cs)
  let digits := rest.takeWhile Char.isDigit
  if digits.isEmpty then none
  else
    let v : Int := Int.ofNat (digitsVal 0 digits)
    some (if neg then -v else v)

/-- parseInt(v, 10) on a dynamic value; none models NaN. -/
def jsParseInt : JSVal → Option Int
  | JSVal.num n => some n
  | JSVal.str s => parseIntStr s
  | _ => none

/-!
## Retry Policy (utils/scraper-utils.js, retry)

The operation under retry is modelled as an oracle giving the outcome of
the i-th attempt (0-indexed).  retryGo mirrors the while loop of retry:
remaining counts the retries still allowed (maxRetries minus the retries
already consumed), i is the index of the attempt about to run.  The
returned triple is (final outcome, number of attempts performed, number of
backoff delays performed): the source sleeps once before every retry and
never after the final failure.
-/

/-- The while loop of retry: on failure with no retries remaining, the
last error is re-raised; otherwise one delay is performed and the next
attempt runs. -/
def retryGo {E A : Type} (op : Nat → Except E A) : Nat → Nat → Except E A × Nat × Nat
  | remaining, i =>
    match op i with
    | Except.ok v => (Except.ok v, i + 1, i)
    | Except.error e =>
      match remaining with
      | 0 => (Except.error e, i + 1, i)
      | Nat.succ r => retryGo op r (i + 1)

/-- retry(fn, maxRetries): first attempt plus up to maxRetries retries. -/
def retryModel {E A : Type} (op : Nat → Except E A) (maxRetries : Nat) :
    Except E A × Nat × Nat :=
  retryGo op maxRetries 0

/-!
## Pagination Controller (scrapers/lkq/index.js)

One search-page request is modelled by one oracle call; the oracle is
indexed by the number of requests issued so far in the run, so that
transient failures and their re-issues are both visible.  PageResult.err
covers both a thrown request and an invalid (non-array data) response,
which the source turns into a throw caught by the same handler.
-/

/-- Outcome of one search-page request. -/
inductive PageResult (α : Type) : Type where
  | err : PageResult α
  | page (data : List α) (count : Option JSVal) : PageResult α

/-- Loop state of the two pagination entry points, plus a log of the
(skip, take) pairs of every issued request. -/
structure PageState (α : Type) : Type where
  allProducts : List α
  skip : Nat
  hasMore : Bool
  consecutiveErrors : Nat
  calls : List (Nat × Nat)

/-- Initial pagination state: nothing collected, skip 0, hasMore true. -/
def initPageState {α : Type} : PageState α :=
  { allProducts := [], skip := 0, hasMore := true, consecutiveErrors := 0, calls := [] }

/-- Lines 147-155 / 258-266 of index.js: hasMore is derived from the
response count when that field is truthy (skip+take < parseInt(count)),
else from the heuristic returnedCount == requested take.  authSum is the
skip+take sum used against the authoritative count (the URL entry point
uses the constant page size 50 there, not the clamped take). -/
def pageHasMore (authSum heurTake dataLen : Nat) (count : Option JSVal) : Bool :=
  match count with
  | some c =>
    if jsTruthy c then
      match jsParseInt c with
      | some total => decide ((authSum : Int) < total)
      | none => false
    else decide (dataLen = heurTake)
  | none => decide (dataLen = heurTake)

/-- The while loop of fetchProductsByCategory (index.js lines 119-185),
with fuel.  take is clamped to the remaining budget; errors bump the
consecutive-error counter and re-issue at the same skip; the ceiling
breaks the loop with whatever was collected. -/
def fetchCatLoop {α : Type} (oracle : Nat → PageResult α)
    (batchSize maxRetries maxProducts : Nat) :
    Nat → PageState α → PageState α
  | 0, s => s
  | Nat.succ fuel, s =>
    if s.hasMore = true ∧ s.allProducts.length < maxProducts ∧
        s.consecutiveErrors < maxRetries then
      let tk := min batchSize (maxProducts - s.allProducts.length)
      let s1 : PageState α := { s with calls := s.calls ++ [(s.skip, tk)] }
      match oracle s.calls.length with
      | PageResult.err =>
        let ce := s.consecutiveErrors + 1
        if maxRetries ≤ ce then { s1 with consecutiveErrors := ce }
        else fetchCatLoop oracle batchSize maxRetries maxProducts fuel
          { s1 with consecutiveErrors := ce }
      | PageResult.page data count =>
        if data.length = 0 then { s1 with hasMore := false }
        else
          let s2 : PageState α :=
            { allProducts := s.allProducts ++ data,
              skip := s.skip + tk,
              hasMore := pageHasMore (s.skip + tk) tk data.length count,
              consecutiveErrors := 0,
              calls := s1.calls }
          if maxProducts ≤ s2.allProducts.length then s2
          else fetchCatLoop oracle batchSize maxRetries maxProducts fuel s2
    else s

/-- The while loop of fetchProductsByUrl (index.js lines 225-295): the
page size is the constant 50, the per-request take is clamped to the
remaining budget, the authoritative hasMore check uses skip + 50 (the
constant, a quirk of the source), the heuristic uses the clamped take,
and the retry ceiling is the literal 3. -/
def fetchUrlLoop {α : Type} (oracle : Nat → PageResult α) (maxProducts : Nat) :
    Nat → PageState α → PageState α
  | 0, s => s
  | Nat.succ fuel, s =>
    if s.hasMore = true ∧ s.allProducts.length < maxProducts ∧
        s.consecutiveErrors < 3 then
      let tk := min 50 (maxProducts - s.allProducts.length)
      let s1 : PageState α := { s with calls := s.calls ++ [(s.skip, tk)] }
      match oracle s.calls.length with
      | PageResult.err =>
        let ce := s.consecutiveErrors + 1
        if 3 ≤ ce then { s1 with consecutiveErrors := ce }
        else fetchUrlLoop oracle maxProducts fuel { s1 with consecutiveErrors := ce }
      | PageResult.page data count =>
        if data.length = 0 then { s1 with hasMore := false }
        else
          let s2 : PageState α :=
            { allProducts := s.allProducts ++ data,
              skip := s.skip + tk,
              hasMore := pageHasMore (s.skip + 50) tk data.length count,
              consecutiveErrors := 0,
              calls := s1.calls }
          if maxProducts ≤ s2.allProducts.length then s2
          else fetchUrlLoop oracle maxProducts fuel s2
    else s

/-- Final trim of both entry points: slice(0, maxProducts) when over. -/
def trimTo {α : Type} (maxProducts : Nat) (l : List α) : List α :=
  if maxProducts < l.length then l.take maxProducts else l

/-- fetchProductsByCategory: the counts probe (lkqApi.getCategoryCounts)
runs before the loop inside the outer try; probeOk = false models the
probe throwing, which the outer catch turns into an empty result. -/
def fetchProductsByCategory {α : Type} (probeOk : Bool) (oracle : Nat → PageResult α)
    (batchSize maxRetries maxProducts fuel : Nat) : List α :=
  if probeOk then
    trimTo maxProducts
      (fetchCatLoop oracle batchSize maxRetries maxProducts fuel initPageState).allProducts
  else []

/-- fetchProductsByUrl: loop then slice(0, maxProducts). -/
def fetchProductsByUrl {α : Type} (oracle : Nat → PageResult α)
    (maxProducts fuel : Nat) : List α :=
  trimTo maxProducts
    (fetchUrlLoop oracle maxProducts fuel initPageState).allProducts

/-- The issued (skip, take) log is contiguous from cursor n: each request
starts exactly where the previous one ended. -/
def contigFromB : Nat → List (Nat × Nat) → Bool
  | _, [] => true
  | n, (sk, t) :: rest => decide (sk = n) && contigFromB (n + t) rest

/-- Cursor position after a (skip, take) log. -/
def endCursor : Nat → List (Nat × Nat) → Nat
  | n, [] => n
  | _, (sk, t) :: rest => endCursor (sk + t) rest

/-!
## Data model for upstream items and canonical records

Item models one upstream product object with the fields the two mapper
variants read; every field is optional (absent property = none) and every
field the mapper does not read explicitly is carried in `others`, exactly
the keys the source copies into otherParams.  The embedded JSON
sub-documents (_salvageSourceVehicle, fitmentJson) are modelled by their
parse outcome: the JSON.parse calls are wrapped in try/catch in the
source, so only the outcome matters.
-/

/-- One entry of the parsed fitment list. -/
structure Fitment : Type where
  SystemMake : Option JSVal := none
  SystemModel : Option JSVal := none
  SystemYear : Option JSVal := none
deriving DecidableEq

/-- Parse outcome of product.fitmentJson.  nonArray models a string that
parses to a JSON value that is not an array, on which fitments.map later
throws a TypeError. -/
inductive FitParse : Type where
  | failed : FitParse
  | arr (fits : List Fitment) : FitParse
  | nonArray : FitParse
deriving DecidableEq

/-- The parsed source-vehicle record. -/
structure SourceVehicle : Type where
  Make : Option JSVal := none
  Model : Option JSVal := none
  Year : Option JSVal := none
  Mileage : Option JSVal := none
  SourceVehicleImages : Option (List String) := none
deriving DecidableEq

/-- Parse outcome of product._salvageSourceVehicle. -/
inductive SVParse : Type where
  | failed : SVParse
  | parsed (sv : SourceVehicle) : SVParse
deriving DecidableEq

/-- One entry of product.images. -/
structure ItemImage : Type where
  url : Option String := none
  description : Option String := none
deriving DecidableEq

/-- One entry of product.pricing. -/
structure PricingEntry : Type where
  customerPrice : Option JSVal := none
deriving DecidableEq

/-- product.catalog. -/
structure CatalogRef : Type where
  id : Option JSVal := none
  name : Option JSVal := none
deriving DecidableEq

/-- One upstream product object. -/
structure Item : Type where
  number : Option String := none
  id : Option String := none
  productId : Option String := none
  descriptionRetail : Option String := none
  description : Option String := none
  category : Option String := none
  availability : Option String := none
  ftcDisplay : Option String := none
  location : Option String := none
  yardCity : Option String := none
  yardState : Option String := none
  price : Option JSVal := none
  pricing : List PricingEntry := []
  images : Option (List ItemImage) := none
  salvageSourceVehicle : Option SVParse := none
  fitmentJson : Option FitParse := none
  interchange : Option JSVal := none
  sourceVehicleYear : Option JSVal := none
  sourceVehicleMake : Option JSVal := none
  sourceVehicleModel : Option JSVal := none
  mileage : Option JSVal := none
  catalog : Option CatalogRef := none
  isReman : Option JSVal := none
  details : Option JSVal := none
  others : List (String × JSVal) := []
deriving DecidableEq

/-- An item with every property absent. -/
def blankItem : Item := {}

/-- One compatibility entry of the canonical record. -/
structure Compat : Type where
  make : JSVal
  model : JSVal
  year : JSVal
  trim : String
deriving DecidableEq

/-- One image entry of the canonical record. -/
structure RecordImage : Type where
  url : String
  alt : String
deriving DecidableEq

/-- The metadata block of the canonical record.  rawData is present only
in the index.js variant, which stores JSON.stringify(product) there;
serialisation is modelled by storing the item itself. -/
structure Metadata : Type where
  originalId : String
  interchange : JSVal
  sourceVehicleYear : JSVal
  sourceVehicleMake : JSVal
  sourceVehicleModel : JSVal
  mileage : JSVal
  location : String
  yardCity : String
  yardState : String
  catalogId : JSVal
  catalogName : JSVal
  isReman : JSVal
  rawData : Option Item := none
deriving DecidableEq

/-- The otherParams catch-all of mapper.js: the unmapped upstream keys,
the details payload when present, and (on the error path) the raw item
and the mapping error message. -/
structure OtherParams : Type where
  extra : List (String × JSVal) := []
  details : Option JSVal := none
  rawData : Option Item := none
  mappingError : Option String := none
deriving DecidableEq

/-- The canonical Part record (named PartRecord here: Part is taken by Mathlib).  Optional fields model key presence: the
minimal record built on the mapper.js error path carries only partNumber,
name, source and otherParams. -/
structure PartRecord : Type where
  partNumber : String
  name : String
  source : String
  description : Option String := none
  price : Option JSVal := none
  currency : Option String := none
  manufacturer : Option JSVal := none
  category : Option String := none
  subcategory : Option String := none
  compatibility : Option (List Compat) := none
  images : Option (List RecordImage) := none
  specifications : Option (List (String × String)) := none
  sourceUrl : Option String := none
  inStock : Option Bool := none
  quantity : Option Nat := none
  condition : Option String := none
  metadata : Option Metadata := none
  otherParams : Option OtherParams := none
deriving DecidableEq

/-!
## Shared pieces of the two mapper variants

The code of mapper.js and of the duplicate mapper embedded in index.js is
textually identical for the source-vehicle parse, images, specifications,
condition, stock and metadata (apart from rawData); those pieces are
shared here.
-/

/-- sourceVehicle: parsed from _salvageSourceVehicle when it is a string
that parses; {} when absent, not a string, or failing to parse. -/
def sourceVehicleOf (p : Item) : SourceVehicle :=
  match p.salvageSourceVehicle with
  | some (SVParse.parsed sv) => sv
  | _ => {}

/-- Object-assignment into the specifications map: overwrite an existing
key in place, else append. -/
def setSpec (l : List (String × String)) (k v : String) : List (String × String) :=
  if l.any (fun kv => kv.1 = k) then
    l.map (fun kv => if kv.1 = k then (k, v) else kv)
  else l ++ [(k, v)]

/-- Specifications extracted from the description: split on ',', trim,
split each part on ' ', keep the first two tokens when both non-empty. -/
def buildSpecs (description : String) : List (String × String) :=
  (((description.splitOn ",").map String.trim)).foldl
    (fun acc part =>
      let toks := part.splitOn " "
      let key := toks.getD 0 ""
      let value := toks.getD 1 ""
      if key ≠ "" ∧ value ≠ "" then setSpec acc key value else acc)
    []

/-- images mapping: product.images entries, then the source-vehicle
images when that field is an array. -/
def mapImages (p : Item) (sv : SourceVehicle) : List RecordImage :=
  let base := ((p.images).getD []).map (fun img =>
    { url := optStr img.url,
      alt := strOr (optStr img.description) (strOr (optStr p.description) "") })
  match sv.SourceVehicleImages with
  | some urls =>
    base ++ urls.map (fun u =>
      { url := u,
        alt := "Source Vehicle - " ++ jsToDisplay (jsOr (optJS sv.Year) (JSVal.str ""))
          ++ " " ++ jsToDisplay (jsOr (optJS sv.Make) (JSVal.str ""))
          ++ " " ++ jsToDisplay (jsOr (optJS sv.Model) (JSVal.str "")) })
  | none => base

/-- condition from ftcDisplay. -/
def mapCondition (ftc : Option String) : String :=
  if ftc = some "Used" then "used"
  else if ftc = some "New" then "new"
  else if ftc = some "Refurbished" then "refurbished"
  else "unknown"

/-- inStock from availability. -/
def mapInStock (availability : Option String) : Bool :=
  availability = some "availableLocal" ∨ availability = some "availableShip"

/-- The metadata block shared by both variants; raw is the rawData entry
(index.js variant only). -/
def buildMetadata (p : Item) (sv : SourceVehicle) (raw : Option Item) : Metadata :=
  { originalId := optStr p.id,
    interchange := jsOr (optJS p.interchange) (JSVal.str ""),
    sourceVehicleYear := jsOr (optJS p.sourceVehicleYear) (jsOr (optJS sv.Year) (JSVal.str "")),
    sourceVehicleMake := jsOr (optJS p.sourceVehicleMake) (jsOr (optJS sv.Make) (JSVal.str "")),
    sourceVehicleModel := jsOr (optJS p.sourceVehicleModel) (jsOr (optJS sv.Model) (JSVal.str "")),
    mileage := jsOr (optJS p.mileage) (jsOr (optJS sv.Mileage) (JSVal.num 0)),
    location := optStr p.location,
    yardCity := optStr p.yardCity,
    yardState := optStr p.yardState,
    catalogId := (match p.catalog with | some c => optJS c.id | none => JSVal.num 0),
    catalogName := (match p.catalog with | some c => optJS c.name | none => JSVal.str ""),
    isReman := jsOr (optJS p.isReman) (JSVal.bool false),
    rawData := raw }

/-- partNumber: product.number || product.id || ''. -/
def mapPartNumber (p : Item) : String :=
  strOr (optStr p.number) (strOr (optStr p.id) "")

/-- name: product.descriptionRetail || product.description || ''. -/
def mapName (p : Item) : String :=
  strOr (optStr p.descriptionRetail) (strOr (optStr p.description) "")

/-- category: (product.category || '').split('|')[1] || ''. -/
def mapCategory (p : Item) : String :=
  strOr (((optStr p.category).splitOn "|").getD 1 "") ""

/-- sourceUrl template. -/
def mapSourceUrl (p : Item) : String :=
  "https://www.lkqonline.com/parts/" ++ mapPartNumber p

/-- The fitment list, or a thrown TypeError when the parsed fitmentJson
value is not an array (fitments.map is not a function). -/
def fitmentsOf (p : Item) : Except String (List Fitment) :=
  match p.fitmentJson with
  | some FitParse.nonArray => Except.error "fitments.map is not a function"
  | some (FitParse.arr l) => Except.ok l
  | _ => Except.ok []

namespace Mapper

/-!
The mapper of scrapers/lkq/mapper.js, the variant imported and used by
index.js.  Year is kept in its native representation; price uses the
(product.price !== undefined) test; un-mapped fields go to otherParams;
the catch branch returns a minimal record.
-/

/-- Compatibility entry: year kept as is, no parseInt (mapper.js line 39). -/
def compatOf (f : Fitment) : Compat :=
  { make := jsOr (optJS f.SystemMake) (JSVal.str ""),
    model := jsOr (optJS f.SystemModel) (JSVal.str ""),
    year := jsOr (optJS f.SystemYear) (JSVal.num 0),
    trim := "" }

/-- price: product.price when the property is present (even falsy), else
pricing[0].customerPrice || 0, else 0. -/
def priceOf (p : Item) : JSVal :=
  match p.price with
  | some v => v
  | none =>
    match p.pricing with
    | [] => JSVal.num 0
    | e :: _ => jsOr (optJS e.customerPrice) (JSVal.num 0)

/-- The body of the try block of mapProductToPart: the only throw site
reachable with this typed item model is fitments.map on a parsed
fitmentJson value that is not an array. -/
def mapBody (p : Item) : Except String PartRecord :=
  let sv := sourceVehicleOf p
  match fitmentsOf p with
  | Except.error e => Except.error e
  | Except.ok fitments =>
    Except.ok
      { partNumber := mapPartNumber p,
        name := mapName p,
        source := "lkq",
        description := some (optStr p.description),
        price := some (priceOf p),
        currency := some "USD",
        manufacturer := some (jsOr (optJS sv.Make)
          (jsOr (optJS p.sourceVehicleMake) (JSVal.str ""))),
        category := some (mapCategory p),
        subcategory := some "",
        compatibility := some (fitments.map compatOf),
        images := some (mapImages p sv),
        specifications := some (buildSpecs (optStr p.description)),
        sourceUrl := some (mapSourceUrl p),
        inStock := some (mapInStock p.availability),
        quantity := some 1,
        condition := some (mapCondition p.ftcDisplay),
        metadata := some (buildMetadata p sv none),
        otherParams := some { extra := p.others, details := p.details } }

/-- The minimal record built by the catch branch (mapper.js lines
146-154): identifier with 'unknown' fallback, name with 'Unknown part'
fallback, the source tag, and the raw data plus error message in
otherParams. -/
def minimalPart (p : Item) (msg : String) : PartRecord :=
  { partNumber := strOr (optStr p.number) (strOr (optStr p.id) "unknown"),
    name := strOr (optStr p.descriptionRetail) (strOr (optStr p.description) "Unknown part"),
    source := "lkq",
    otherParams := some { rawData := some p, mappingError := some msg } }

/-- mapProductToPart of mapper.js: null input gives null; a thrown
mapping error gives the minimal record. -/
def mapProductToPart (product : Option Item) : Option PartRecord :=
  match product with
  | none => none
  | some p =>
    match mapBody p with
    | Except.ok part => some part
    | Except.error msg => some (minimalPart p msg)

end Mapper

namespace IndexCopy

/-!
The duplicate mapper embedded at the bottom of scrapers/lkq/index.js
(not the one index.js imports).  Differences from mapper.js: the
compatibility year is parseInt-ed; price uses a truthiness test; there is
no otherParams block; metadata carries rawData; the catch branch returns
null instead of a minimal record.
-/

/-- Compatibility entry: year := parseInt(SystemYear, 10) || 0
(index.js line 576). -/
def compatOf (f : Fitment) : Compat :=
  { make := jsOr (optJS f.SystemMake) (JSVal.str ""),
    model := jsOr (optJS f.SystemModel) (JSVal.str ""),
    year := JSVal.num
      (match jsParseInt (optJS f.SystemYear) with
       | some n => if n = 0 then 0 else n
       | none => 0),
    trim := "" }

/-- price: product.price when truthy, else pricing[0].customerPrice || 0. -/
def priceOf (p : Item) : JSVal :=
  if jsTruthy (optJS p.price) then optJS p.price
  else
    match p.pricing with
    | [] => JSVal.num 0
    | e :: _ => jsOr (optJS e.customerPrice) (JSVal.num 0)

/-- The body of the try block of the embedded mapProductToPart. -/
def mapBody (p : Item) : Except String PartRecord :=
  let sv := sourceVehicleOf p
  match fitmentsOf p with
  | Except.error e => Except.error e
  | Except.ok fitments =>
    Except.ok
      { partNumber := mapPartNumber p,
        name := mapName p,
        source := "lkq",
        description := some (optStr p.description),
        price := some (priceOf p),
        currency := some "USD",
        manufacturer := some (jsOr (optJS sv.Make)
          (jsOr (optJS p.sourceVehicleMake) (JSVal.str ""))),
        category := some (mapCategory p),
        subcategory := some "",
        compatibility := some (fitments.map compatOf),
        images := some (mapImages p sv),
        specifications := some (buildSpecs (optStr p.description)),
        sourceUrl := some (mapSourceUrl p),
        inStock := some (mapInStock p.availability),
        quantity := some 1,
        condition := some (mapCondition p.ftcDisplay),
        metadata := some (buildMetadata p sv (some p)) }

/-- The embedded mapProductToPart: the catch branch returns null. -/
def mapProductToPart (product : Option Item) : Option PartRecord :=
  match product with
  | none => none
  | some p =>
    match mapBody p with
    | Except.ok part => some part
    | Except.error _ => none

end IndexCopy

/-- LkqScraper.mapProducts (index.js lines 377-391): map each raw item
through the imported mapper (whose result can be null), then
filter(Boolean). -/
def mapProducts (products : List (Option Item)) : List PartRecord :=
  (products.map Mapper.mapProductToPart).reduceOption

/-!
## Detail Enrichment Batcher
(index.js fetchProductDetails, utils/scraper-utils.js chunk)
-/

/-- The chunk loop of scraper-utils.js: for (i = 0; i < len; i += size)
push slice(i, i + size).  The loop is modelled with fuel because with
size = 0 the index never advances and the source loops forever; fuel
exhaustion returns none. -/
def chunkF {α : Type} (size : Nat) : Nat → List α → Option (List (List α))
  | _, [] => some []
  | 0, _ :: _ => none
  | Nat.succ fuel, l@(_ :: _) =>
    (chunkF size fuel (l.drop size)).map (fun cs => l.take size :: cs)

/-- chunk(array, size) with the canonical fuel length+1, which suffices
for every positive size; for size = 0 and a non-empty array this is none
(the source never returns). -/
def chunk {α : Type} (l : List α) (size : Nat) : Option (List (List α)) :=
  chunkF size (l.length + 1) l

/-- product.id || product.productId with JavaScript falsiness:
an empty string does not count as an id. -/
def truthyStr : Option String → Option String
  | some s => if s = "" then none else some s
  | none => none

/-- id = product.id || product.productId. -/
def productIdOf (it : Item) : Option String :=
  match truthyStr it.id with
  | some s => some s
  | none => truthyStr it.productId

/-- The per-item callback of fetchProductDetails (index.js lines
334-356): a null element makes product.id throw, caught by the inner
catch which returns the element; a missing id returns the item; a thrown
or falsy details response returns the item; otherwise the details payload
is merged under the details key. -/
def enrichOne (detOracle : String → Except Unit JSVal) (p : Option Item) : Option Item :=
  match p with
  | none => none
  | some it =>
    match productIdOf it with
    | none => some it
    | some pid =>
      match detOracle pid with
      | Except.error _ => some it
      | Except.ok d => if jsTruthy d then some { it with details := some d } else some it

/-- fetchProductDetails with explicit chunking fuel: empty input returns
[]; otherwise the items are chunked into groups of parallelRequests, each
group is mapped through the per-item callback (Promise.all preserves
submission order) and the group results are concatenated. -/
def fetchProductDetailsFuel (detOracle : String → Except Unit JSVal) (parallel : Nat)
    (products : List (Option Item)) (fuel : Nat) : Option (List (Option Item)) :=
  if products.length = 0 then some []
  else
    match chunkF parallel fuel products with
    | none => none
    | some batches => some (batches.map (List.map (enrichOne detOracle))).flatten

/-- fetchProductDetails with the canonical fuel. -/
def fetchProductDetails (detOracle : String → Except Unit JSVal) (parallel : Nat)
    (products : List (Option Item)) : Option (List (Option Item)) :=
  fetchProductDetailsFuel detOracle parallel products (products.length + 1)

/-- The batcher never returns on this input: however much fuel the
chunking loop is given, it does not complete.  Witnesses the infinite
for-loop of chunk when size = 0. -/
def enrichNeverReturns (detOracle : String → Except Unit JSVal) (parallel : Nat)
    (products : List (Option Item)) : Prop :=
  ∀ fuel, fetchProductDetailsFuel detOracle parallel products fuel = none

/-!
## Pipeline Orchestrator (index.js, LkqScraper.scrape)
-/

/-- One orchestrator input: a category name (whose processing starts with
the counts probe) or a literal URL. -/
inductive ScrapeInput : Type where
  | category (probeOk : Bool) (oracle : Nat → PageResult (Option Item)) : ScrapeInput
  | url (oracle : Nat → PageResult (Option Item)) : ScrapeInput

/-- Collection for one input, with the remaining budget as maxProducts. -/
def collectInput (inp : ScrapeInput) (batchSize maxRetries maxProducts fuel : Nat) :
    List (Option Item) :=
  match inp with
  | ScrapeInput.category probeOk o =>
    fetchProductsByCategory probeOk o batchSize maxRetries maxProducts fuel
  | ScrapeInput.url o => fetchProductsByUrl o maxProducts fuel

/-- The per-input loop of scrape (index.js lines 458-524): stop issuing
inputs once the budget is exhausted, collect with the remaining budget,
skip empty results, optionally enrich, accumulate. -/
def scrapeAcc (detOracle : String → Except Unit JSVal)
    (batchSize maxRetries parallel : Nat) (fetchDetails : Bool) (maxProducts fuel : Nat) :
    List ScrapeInput → List (Option Item) → Option (List (Option Item))
  | [], acc => some acc
  | inp :: rest, acc =>
    if maxProducts - acc.length = 0 then some acc
    else
      let products := collectInput inp batchSize maxRetries (maxProducts - acc.length) fuel
      if products.length = 0 then
        scrapeAcc detOracle batchSize maxRetries parallel fetchDetails maxProducts fuel rest acc
      else
        match (if fetchDetails then fetchProductDetails detOracle parallel products
               else some products) with
        | none => none
        | some pwd =>
          scrapeAcc detOracle batchSize maxRetries parallel fetchDetails maxProducts fuel
            rest (acc ++ pwd)

/-- scrape: empty input list returns []; otherwise the accumulated raw
items are mapped through the mapper and nulls are filtered out. -/
def scrape (detOracle : String → Except Unit JSVal)
    (batchSize maxRetries parallel : Nat) (fetchDetails : Bool) (maxProducts fuel : Nat)
    (inputs : List ScrapeInput) : Option (List PartRecord) :=
  if inputs.length = 0 then some []
  else
    (scrapeAcc detOracle batchSize maxRetries parallel fetchDetails maxProducts fuel
      inputs []).map mapProducts

/-!
## Catalog Client log sanitisation (api.js, makeApiRequest lines 112-120)
and the cookie-extraction script log lines (scripts/get-lkq-cookies.js).
-/

/-- key.startsWith('XvPW5hYbpt'): the test selecting the opaque
security-token headers. -/
def isTokenKey (k : String) : Bool :=
  List.isPrefixOf "XvPW5hYbpt".toList k.toList

/-- The header sanitisation applied before the request-headers debug log:
a truthy Cookie value is replaced by a length placeholder, and every
header whose name starts with the security-token prefix is replaced by a
length placeholder. -/
def sanitizeHeaders (hs : List (String × String)) : List (String × String) :=
  hs.map (fun kv =>
    if kv.1 = "Cookie" ∧ kv.2 ≠ "" then
      (kv.1, "[COOKIE HIDDEN - LENGTH: " ++ toString kv.2.length ++ "]")
    else if isTokenKey kv.1 then
      (kv.1, "[TOKEN HIDDEN - LENGTH: " ++ toString kv.2.length ++ "]")
    else kv)

/-- The log line of getCookies on Puppeteer success (script line 83):
the extracted cookie string is interpolated verbatim. -/
def getCookiesPuppeteerSuccessLog (cookies : String) : String :=
  "Successfully extracted cookies with Puppeteer: " ++ cookies

/-- The .env suggestion log line of main (script lines 236 and 244):
the cookie string is interpolated verbatim. -/
def mainEnvSuggestionLog (cookies : String) : String :=
  "LKQ_COOKIES=" ++ cookies

/-- A log line leaks a secret when the secret occurs in it verbatim. -/
def LeaksIn (logLine secret : String) : Prop :=
  ∃ pre post, logLine = pre ++ secret ++ post

/-- A concrete session-cookie value, the first cookie of the configured
default cookie string. -/
def exCookie : String := "userId=299078579207720039"

/-!
## Helper lemmas
-/

/-- If every attempt from index i on fails, the loop consumes all
remaining retries and re-raises the error of the final attempt. -/
theorem retryGo_all_fail {E A : Type} (op : Nat → Except E A) (errs : Nat → E)
    (h : ∀ j, op j = Except.error (errs j)) :
    ∀ remaining i, retryGo op remaining i =
      (Except.error (errs (i + remaining)), i + remaining + 1, i + remaining) := by
  intro remaining
  induction remaining with
  | zero => intro i; simp [retryGo, h i]
  | succ r ih =>
    intro i
    rw [retryGo, h i]
    simp only []
    rw [ih (i + 1)]
    have h1 : i + 1 + r = i + (r + 1) := by omega
    rw [h1]

/-- If the attempts at indices i, …, i+d-1 fail and attempt i+d succeeds,
and at least d retries remain, the loop returns the success with exactly
i+d+1 attempts and i+d delays performed overall. -/
theorem retryGo_succeeds {E A : Type} (op : Nat → Except E A) (v : A) :
    ∀ d remaining i, d ≤ remaining →
      (∀ j, i ≤ j → j < i + d → ∃ e, op j = Except.error e) →
      op (i + d) = Except.ok v →
      retryGo op remaining i = (Except.ok v, i + d + 1, i + d) := by
  intro d
  induction d with
  | zero =>
    intro remaining i _ _ hok
    simp only [Nat.add_zero] at hok
    cases remaining <;> simp [retryGo, hok]
  | succ d ih =>
    intro remaining i hd hfail hok
    obtain ⟨e, he⟩ := hfail i (Nat.le_refl i) (by omega)
    obtain ⟨r, rfl⟩ : ∃ r, remaining = r + 1 := ⟨remaining - 1, by omega⟩
    rw [retryGo, he]
    simp only []
    have harith : i + 1 + d = i + (d + 1) := by omega
    have := ih r (i + 1) (by omega)
      (fun j hj1 hj2 => hfail j (by omega) (by omega))
      (by rw [harith]; exact hok)
    rw [this, harith]

/-- Appending a request that starts at the current cursor keeps the log
contiguous. -/
theorem contigFromB_append : ∀ (calls : List (Nat × Nat)) (n t : Nat),
    contigFromB n calls = true →
    contigFromB n (calls ++ [(endCursor n calls, t)]) = true := by
  intro calls
  induction calls with
  | nil => intro n t _; simp [contigFromB, endCursor]
  | cons c rest ih =>
    intro n t h
    obtain ⟨c1, c2⟩ := c
    simp only [contigFromB, Bool.and_eq_true, decide_eq_true_eq] at h
    obtain ⟨rfl, h2⟩ := h
    simp only [List.cons_append, contigFromB, Bool.and_eq_true, decide_eq_true_eq]
    refine ⟨trivial, ?_⟩
    have : endCursor c1 ((c1, c2) :: rest) = endCursor (c1 + c2) rest := rfl
    rw [this]
    exact ih (c1 + c2) t h2

/-- The cursor after appending a request at position m with take t. -/
theorem endCursor_append : ∀ (calls : List (Nat × Nat)) (n m t : Nat),
    endCursor n (calls ++ [(m, t)]) = m + t := by
  intro calls
  induction calls with
  | nil => intro n m t; rfl
  | cons c rest ih =>
    intro n m t
    obtain ⟨c1, c2⟩ := c
    simpa [endCursor] using ih (c1 + c2) m t

/-- Invariant of the category pagination loop in an error-free run with a
positive batch size: the issued request log stays contiguous and every
issued take is positive. -/
theorem fetchCatLoop_inv {α : Type} (oracle : Nat → PageResult α)
    (herr : ∀ i, oracle i ≠ PageResult.err) (bs mr mp : Nat) (hbs : 1 ≤ bs) :
    ∀ fuel s, contigFromB 0 s.calls = true → endCursor 0 s.calls = s.skip →
      (∀ c ∈ s.calls, 1 ≤ c.2) →
      contigFromB 0 (fetchCatLoop oracle bs mr mp fuel s).calls = true ∧
      (∀ c ∈ (fetchCatLoop oracle bs mr mp fuel s).calls, 1 ≤ c.2) := by
  intro fuel
  induction fuel with
  | zero => intro s h1 h2 h3; exact ⟨h1, h3⟩
  | succ fuel ih =>
    intro s h1 h2 h3
    rw [fetchCatLoop]
    split
    · next hguard =>
      have htk : 1 ≤ min bs (mp - s.allProducts.length) := by
        obtain ⟨_, hlen, _⟩ := hguard
        omega
      have hcontig1 :
          contigFromB 0 (s.calls ++ [(s.skip, min bs (mp - s.allProducts.length))]) = true := by
        have := contigFromB_append s.calls 0 (min bs (mp - s.allProducts.length)) h1
        rwa [h2] at this
      have hmem1 : ∀ c ∈ s.calls ++ [(s.skip, min bs (mp - s.allProducts.length))], 1 ≤ c.2 := by
        intro c hc
        rcases List.mem_append.mp hc with hc | hc
        · exact h3 c hc
        · simp only [List.mem_singleton] at hc
          subst hc
          exact htk
      cases hor : oracle s.calls.length with
      | err => exact absurd hor (herr _)
      | page data count =>
        simp only []
        split
        · exact ⟨hcontig1, hmem1⟩
        · split
          · exact ⟨hcontig1, hmem1⟩
          · apply ih
            · exact hcontig1
            · have := endCursor_append s.calls 0 s.skip (min bs (mp - s.allProducts.length))
              simpa using this
            · exact hmem1
    · exact ⟨h1, h3⟩

/-- Invariant of the URL pagination loop in an error-free run: same as
the category loop; the positive take comes from the constant page size. -/
theorem fetchUrlLoop_inv {α : Type} (oracle : Nat → PageResult α)
    (herr : ∀ i, oracle i ≠ PageResult.err) (mp : Nat) :
    ∀ fuel s, contigFromB 0 s.calls = true → endCursor 0 s.calls = s.skip →
      (∀ c ∈ s.calls, 1 ≤ c.2) →
      contigFromB 0 (fetchUrlLoop oracle mp fuel s).calls = true ∧
      (∀ c ∈ (fetchUrlLoop oracle mp fuel s).calls, 1 ≤ c.2) := by
  intro fuel
  induction fuel with
  | zero => intro s h1 h2 h3; exact ⟨h1, h3⟩
  | succ fuel ih =>
    intro s h1 h2 h3
    rw [fetchUrlLoop]
    split
    · next hguard =>
      have htk : 1 ≤ min 50 (mp - s.allProducts.length) := by
        obtain ⟨_, hlen, _⟩ := hguard
        omega
      have hcontig1 :
          contigFromB 0 (s.calls ++ [(s.skip, min 50 (mp - s.allProducts.length))]) = true := by
        have := contigFromB_append s.calls 0 (min 50 (mp - s.allProducts.length)) h1
        rwa [h2] at this
      have hmem1 : ∀ c ∈ s.calls ++ [(s.skip, min 50 (mp - s.allProducts.length))], 1 ≤ c.2 := by
        intro c hc
        rcases List.mem_append.mp hc with hc | hc
        · exact h3 c hc
        · simp only [List.mem_singleton] at hc
          subst hc
          exact htk
      cases hor : oracle s.calls.length with
      | err => exact absurd hor (herr _)
      | page data count =>
        simp only []
        split
        · exact ⟨hcontig1, hmem1⟩
        · split
          · exact ⟨hcontig1, hmem1⟩
          · apply ih
            · exact hcontig1
            · have := endCursor_append s.calls 0 s.skip (min 50 (mp - s.allProducts.length))
              simpa using this
            · exact hmem1
    · exact ⟨h1, h3⟩

/-- A contiguous log with positive takes has strictly increasing skip
values, all at least the starting cursor. -/
theorem contig_strict_mono : ∀ (calls : List (Nat × Nat)) (n : Nat),
    contigFromB n calls = true → (∀ c ∈ calls, 1 ≤ c.2) →
    List.Pairwise (fun a b => a < b) (calls.map Prod.fst) ∧
    ∀ sk ∈ calls.map Prod.fst, n ≤ sk := by
  intro calls
  induction calls with
  | nil => intro n _ _; simp
  | cons c rest ih =>
    intro n h1 h2
    obtain ⟨c1, c2⟩ := c
    simp only [contigFromB, Bool.and_eq_true, decide_eq_true_eq] at h1
    obtain ⟨rfl, hrest⟩ := h1
    have hc2 : 1 ≤ c2 := h2 (c1, c2) (List.mem_cons_self _ _)
    have ihr := ih (c1 + c2) hrest (fun c hc => h2 c (List.mem_cons_of_mem _ hc))
    constructor
    · simp only [List.map_cons, List.pairwise_cons]
      refine ⟨?_, ihr.1⟩
      intro b hb
      have := ihr.2 b hb
      omega
    · intro sk hsk
      simp only [List.map_cons, List.mem_cons] at hsk
      rcases hsk with rfl | hsk
      · exact Nat.le_refl sk
      · have := ihr.2 sk hsk
        omega

/-- In a run whose every request fails, the category loop collects
nothing beyond what the starting state already held. -/
theorem fetchCatLoop_all_err {α : Type} (oracle : Nat → PageResult α)
    (h : ∀ i, oracle i = PageResult.err) (bs mr mp : Nat) :
    ∀ fuel s, (fetchCatLoop oracle bs mr mp fuel s).allProducts = s.allProducts := by
  intro fuel
  induction fuel with
  | zero => intro s; rfl
  | succ fuel ih =>
    intro s
    rw [fetchCatLoop]
    split
    · rw [h s.calls.length]
      simp only []
      split
      · rfl
      · exact ih _
    · rfl

/-- Unfolding equation of chunkF on an empty list. -/
theorem chunkF_nil {α : Type} (size fuel : Nat) :
    chunkF size fuel ([] : List α) = some [] := by
  cases fuel <;> rfl

/-- Unfolding equation of chunkF on a non-empty list with fuel left. -/
theorem chunkF_cons {α : Type} (size fuel : Nat) (x : α) (xs : List α) :
    chunkF size (fuel + 1) (x :: xs) =
      (chunkF size fuel ((x :: xs).drop size)).map
        (fun cs => (x :: xs).take size :: cs) := rfl

/-- A completed chunking concatenates back to the original list. -/
theorem chunkF_flatten {α : Type} (size : Nat) :
    ∀ fuel (l : List α) cs, chunkF size fuel l = some cs → cs.flatten = l := by
  intro fuel
  induction fuel with
  | zero =>
    intro l cs h
    cases l with
    | nil =>
      rw [chunkF_nil] at h
      simp only [Option.some_inj] at h
      subst h
      rfl
    | cons x xs => simp [chunkF] at h
  | succ fuel ih =>
    intro l cs h
    cases l with
    | nil =>
      rw [chunkF_nil] at h
      simp only [Option.some_inj] at h
      subst h
      rfl
    | cons x xs =>
      rw [chunkF_cons] at h
      rcases hd : chunkF size fuel ((x :: xs).drop size) with _ | cs2
      · rw [hd] at h; simp at h
      · rw [hd] at h
        simp only [Option.map_some', Option.some_inj] at h
        subst h
        simp only [List.flatten_cons, ih _ cs2 hd, List.take_append_drop]

/-- With a positive group size, chunking completes within length+1
iterations. -/
theorem chunkF_total {α : Type} (size : Nat) (hsize : 1 ≤ size) :
    ∀ fuel (l : List α), l.length < fuel → ∃ cs, chunkF size fuel l = some cs := by
  intro fuel
  induction fuel with
  | zero => intro l h; omega
  | succ fuel ih =>
    intro l h
    cases l with
    | nil => exact ⟨[], rfl⟩
    | cons x xs =>
      have hlen : (List.drop size (x :: xs)).length < fuel := by
        simp only [List.length_drop, List.length_cons] at *
        omega
      obtain ⟨cs, hcs⟩ := ih _ hlen
      refine ⟨(x :: xs).take size :: cs, ?_⟩
      rw [chunkF_cons, hcs]
      rfl

/-- Mapping inside the groups and flattening is mapping the flattening. -/
theorem flatten_map_map {α β : Type} (f : α → β) :
    ∀ (cs : List (List α)), (cs.map (List.map f)).flatten = cs.flatten.map f := by
  intro cs
  induction cs with
  | nil => rfl
  | cons c rest ih =>
    simp only [List.map_cons, List.flatten_cons, List.map_append, ih]

/-- With a positive concurrency the batcher completes and equals a plain
map of the per-item callback over the input, in input order. -/
theorem fetchProductDetails_eq_map (detOracle : String → Except Unit JSVal)
    (parallel : Nat) (hpar : 1 ≤ parallel) (products : List (Option Item)) :
    fetchProductDetails detOracle parallel products =
      some (products.map (enrichOne detOracle)) := by
  unfold fetchProductDetails fetchProductDetailsFuel
  split
  · next hlen =>
    have : products = [] := List.length_eq_zero.mp hlen
    subst this
    rfl
  · obtain ⟨cs, hcs⟩ := chunkF_total parallel hpar (products.length + 1) products (by omega)
    rw [hcs]
    simp only [Option.some_inj]
    rw [flatten_map_map, chunkF_flatten parallel _ products cs hcs]

/-- Whenever the batcher returns, it returns one output per input. -/
theorem fetchProductDetailsFuel_length (detOracle : String → Except Unit JSVal)
    (parallel : Nat) (products : List (Option Item)) (fuel : Nat)
    (out : List (Option Item))
    (h : fetchProductDetailsFuel detOracle parallel products fuel = some out) :
    out.length = products.length := by
  unfold fetchProductDetailsFuel at h
  split at h
  · next hlen =>
    simp only [Option.some_inj] at h
    subst h
    simp [List.length_eq_zero.mp hlen]
  · cases hcs : chunkF parallel fuel products with
    | none => rw [hcs] at h; simp at h
    | some cs =>
      rw [hcs] at h
      simp only [Option.some_inj] at h
      subst h
      rw [flatten_map_map, List.length_map, chunkF_flatten parallel fuel products cs hcs]

/-- With group size 0 the chunk loop never completes on a non-empty
list: the index never advances past the first element. -/
theorem chunkF_zero_diverges {α : Type} (x : α) (xs : List α) :
    ∀ fuel, chunkF 0 fuel (x :: xs) = none := by
  intro fuel
  induction fuel with
  | zero => rfl
  | succ fuel ih => rw [chunkF_cons, List.drop_zero, ih]; rfl

/-- reduceOption after a map is a filterMap. -/
theorem reduceOption_map_eq {α β : Type} (f : α → Option β) :
    ∀ l : List α, (l.map f).reduceOption = l.filterMap f := by
  intro l
  induction l with
  | nil => rfl
  | cons x xs ih =>
    rcases hx : f x with _ | y
    · simp [List.reduceOption_cons_of_none, List.filterMap_cons, hx, ih]
    · simp [List.reduceOption_cons_of_some, List.filterMap_cons, hx, ih]

/-- mapProducts is the null-filtering map of the mapper. -/
theorem mapProducts_eq_filterMap (products : List (Option Item)) :
    mapProducts products = products.filterMap Mapper.mapProductToPart :=
  reduceOption_map_eq Mapper.mapProductToPart products

/-- mapProducts never returns more records than raw items. -/
theorem mapProducts_length_le (products : List (Option Item)) :
    (mapProducts products).length ≤ products.length := by
  rw [mapProducts_eq_filterMap]
  exact List.length_filterMap_le _ _

/-- The trim step caps the result length at maxProducts. -/
theorem trimTo_length_le {α : Type} (mp : Nat) (l : List α) :
    (trimTo mp l).length ≤ mp := by
  unfold trimTo
  split
  · simp
  · omega

/-- Each per-input collection is bounded by the budget it is given. -/
theorem collectInput_length_le (inp : ScrapeInput) (bs mr mp fuel : Nat) :
    (collectInput inp bs mr mp fuel).length ≤ mp := by
  cases inp with
  | category probeOk o =>
    unfold collectInput fetchProductsByCategory
    cases probeOk
    · simp
    · simp only [if_true]
      exact trimTo_length_le mp (fetchCatLoop o bs mr mp fuel initPageState).allProducts
  | url o =>
    unfold collectInput fetchProductsByUrl
    exact trimTo_length_le _ _

/-- The accumulator of scrape never exceeds maxProducts. -/
theorem scrapeAcc_length_le (detOracle : String → Except Unit JSVal)
    (bs mr par : Nat) (fd : Bool) (mp fuel : Nat) :
    ∀ (inputs : List ScrapeInput) (acc : List (Option Item)),
      acc.length ≤ mp →
      ∀ out, scrapeAcc detOracle bs mr par fd mp fuel inputs acc = some out →
        out.length ≤ mp := by
  intro inputs
  induction inputs with
  | nil =>
    intro acc hacc out h
    simp only [scrapeAcc, Option.some_inj] at h
    subst h
    exact hacc
  | cons inp rest ih =>
    intro acc hacc out h
    rw [scrapeAcc] at h
    by_cases hb : mp - acc.length = 0
    · rw [if_pos hb] at h
      simp only [Option.some_inj] at h
      subst h
      exact hacc
    · rw [if_neg hb] at h
      simp only [] at h
      by_cases hlen0 : (collectInput inp bs mr (mp - acc.length) fuel).length = 0
      · rw [if_pos hlen0] at h
        exact ih acc hacc out h
      · rw [if_neg hlen0] at h
        have hcoll := collectInput_length_le inp bs mr (mp - acc.length) fuel
        cases fd with
        | false =>
          simp only [Bool.false_eq_true, if_false] at h
          refine ih _ ?_ out h
          rw [List.length_append]
          omega
        | true =>
          simp only [if_true] at h
          rcases hpd : fetchProductDetails detOracle par
              (collectInput inp bs mr (mp - acc.length) fuel) with _ | pwd
          · rw [hpd] at h
            simp at h
          · rw [hpd] at h
            simp only [] at h
            have hlen := fetchProductDetailsFuel_length detOracle par
              (collectInput inp bs mr (mp - acc.length) fuel)
              ((collectInput inp bs mr (mp - acc.length) fuel).length + 1) pwd hpd
            refine ih _ ?_ out h
            rw [List.length_append, hlen]
            omega

/-- Once the budget is exhausted, scrape issues no further input. -/
theorem scrapeAcc_stop (detOracle : String → Except Unit JSVal)
    (bs mr par : Nat) (fd : Bool) (mp fuel : Nat)
    (inputs : List ScrapeInput) (acc : List (Option Item))
    (h : mp - acc.length = 0) :
    scrapeAcc detOracle bs mr par fd mp fuel inputs acc = some acc := by
  cases inputs with
  | nil => rfl
  | cons inp rest => rw [scrapeAcc, if_pos h]

/-- A two-step fallback chain ending in a non-empty literal is non-empty. -/
theorem strOr_chain_ne (a b c : String) (hc : c ≠ "") : strOr a (strOr b c) ≠ "" := by
  unfold strOr
  split
  · split
    · exact hc
    · next hb => exact hb
  · next ha => exact ha

/-!
## Concrete inputs used by witnesses and counterexamples
-/

/-- An operation failing exactly twice, then succeeding with 42. -/
def exOpFail2 : Nat → Except String Nat := fun i =>
  if i < 2 then Except.error (toString i) else Except.ok 42

/-- An operation failing on every attempt. -/
def exOpAllFail : Nat → Except String Nat := fun i => Except.error (toString i)

/-- A page oracle failing on the first request, then serving a one-item
page with no count. -/
def exC3Oracle : Nat → PageResult Nat := fun i =>
  if i = 0 then PageResult.err else PageResult.page [0] none

/-- A healthy page oracle serving full pages of five mock items. -/
def exC3Good : Nat → PageResult Nat := fun _ => PageResult.page [0, 0, 0, 0, 0] none

/-- The mock pages of sizes 50, 50 and 12, none carrying a count. -/
def claim4Oracle : Nat → PageResult Nat := fun i =>
  if i = 0 then PageResult.page (List.replicate 50 0) none
  else if i = 1 then PageResult.page (List.replicate 50 0) none
  else PageResult.page (List.replicate 12 0) none

/-- A page oracle serving three null items per page, with no count. -/
def exPagesOracle : Nat → PageResult (Option Item) := fun _ =>
  PageResult.page [none, none, none] none

/-- A detail oracle whose every call throws. -/
def exDetErr : String → Except Unit JSVal := fun _ => Except.error ()

/-- A detail oracle returning a truthy payload for every id. -/
def exDetOk : String → Except Unit JSVal := fun _ => Except.ok (JSVal.str "D")

/-- An item whose parsed fitmentJson is a JSON value that is not an
array, on which the mapper body throws. -/
def exErrItem : Item := { blankItem with fitmentJson := some FitParse.nonArray }

/-- An item with one fitment entry whose SystemYear is the string 2005. -/
def exFitProduct : Item :=
  { blankItem with fitmentJson := some (FitParse.arr
      [{ SystemMake := some (JSVal.str "Honda"),
         SystemModel := some (JSVal.str "Civic"),
         SystemYear := some (JSVal.str "2005") }]) }

/-- A two-item list for the order-preservation witness. -/
def exTwoItems : List (Option Item) := [some { blankItem with id := some "A1" }, none]

/-- The expected enrichment of exTwoItems under exDetOk. -/
def exTwoItemsOut : List (Option Item) :=
  [some { blankItem with id := some "A1", details := some (JSVal.str "D") }, none]

/-!
## Claims
-/

/-- Claim C1: for every list of category/URL inputs and every maxItems,
the orchestrator returns at most maxItems canonical records; each
per-input collection is bounded by the budget it is given (the remaining
maxItems minus the count already collected), and no further input is
issued once the budget is exhausted.  The per-input bound comes from the
slice-truncation of both collection entry points. -/
theorem claim1_scrape_at_most_maxItems (detOracle : String → Except Unit JSVal)
    (bs mr par : Nat) (fd : Bool) (mp fuel : Nat) (inputs : List ScrapeInput)
    (out : List PartRecord)
    (h : scrape detOracle bs mr par fd mp fuel inputs = some out) :
    out.length ≤ mp ∧
    (∀ inp m f2, (collectInput inp bs mr m f2).length ≤ m) ∧
    (∀ inp rest acc, mp ≤ acc.length →
      scrapeAcc detOracle bs mr par fd mp fuel (inp :: rest) acc = some acc) := by
  refine ⟨?_, fun inp m f2 => collectInput_length_le inp bs mr m f2, ?_⟩
  · unfold scrape at h
    split at h
    · simp only [Option.some_inj] at h
      subst h
      simp
    · rcases hacc : scrapeAcc detOracle bs mr par fd mp fuel inputs [] with _ | raw
      · rw [hacc] at h
        simp at h
      · rw [hacc] at h
        simp only [Option.map_some', Option.some_inj] at h
        subst h
        calc (mapProducts raw).length ≤ raw.length := mapProducts_length_le raw
          _ ≤ mp := scrapeAcc_length_le detOracle bs mr par fd mp fuel inputs []
              (by simp) raw hacc
  · intro inp rest acc hacc
    rw [scrapeAcc, if_pos (by omega)]

/-- Witness for C1: a category serving pages of three items under a
budget of two yields at most two records (here none survive the mapper,
the raw items being null). -/
theorem claim1_witness :
    scrape exDetErr 50 3 1 false 2 5 [ScrapeInput.category true exPagesOracle] =
      some [] ∧ ([] : List PartRecord).length ≤ 2 := by
  have h : scrape exDetErr 50 3 1 false 2 5 [ScrapeInput.category true exPagesOracle] =
      some [] := by decide
  exact ⟨h, (claim1_scrape_at_most_maxItems exDetErr 50 3 1 false 2 5
    [ScrapeInput.category true exPagesOracle] [] h).1⟩

/-- Claim C2: identifying the spec parameter maxAttempts with the total
number of attempts the wrapper performs (the source parameter maxRetries
counts retries after the first attempt, so maxAttempts = maxRetries + 1):
an operation failing exactly k < maxAttempts times then succeeding
returns the success value with exactly k backoff delays; an operation
that always fails makes the wrapper re-raise the error of the final
attempt, unchanged, after exactly maxAttempts attempts.  The triple
returned by retryModel is (outcome, attempts performed, delays
performed). -/
theorem claim2_withRetry_contract {E A : Type} (op : Nat → Except E A)
    (maxRetries k : Nat) (v : A) (errs : Nat → E) :
    (k ≤ maxRetries → (∀ i, i < k → op i = Except.error (errs i)) →
      op k = Except.ok v →
      retryModel op maxRetries = (Except.ok v, k + 1, k)) ∧
    ((∀ i, op i = Except.error (errs i)) →
      retryModel op maxRetries =
        (Except.error (errs maxRetries), maxRetries + 1, maxRetries)) := by
  constructor
  · intro hk hfail hok
    unfold retryModel
    have := retryGo_succeeds op v k maxRetries 0 hk
      (fun j _ hj2 => ⟨errs j, hfail j (by omega)⟩)
      (by simpa using hok)
    simpa using this
  · intro hfail
    unfold retryModel
    have := retryGo_all_fail op errs hfail maxRetries 0
    simpa using this

/-- Witness for C2: with maxRetries = 3 (four attempts), failing twice
then succeeding yields the success after two delays; always failing
re-raises the fourth attempt's error after four attempts and three
delays. -/
theorem claim2_witness :
    retryModel exOpFail2 3 = (Except.ok 42, 3, 2) ∧
    retryModel exOpAllFail 3 = (Except.error "3", 4, 3) := by
  constructor
  · exact (claim2_withRetry_contract exOpFail2 3 2 42 (fun i => toString i)).1
      (by omega) (fun i hi => by simp [exOpFail2, hi]) (by simp [exOpFail2])
  · exact (claim2_withRetry_contract exOpAllFail 3 0 0 (fun i => toString i)).2
      (fun i => rfl)

/-- Counterexample to C3 as stated: in a run whose first request fails
transiently, the controller re-issues the next request at the same skip,
so the issued page requests are not pairwise distinct in skip.  Here the
category loop issues (0, 1) twice: once failing, once succeeding. -/
theorem claim3_counterexample_duplicate_skip :
    (fetchCatLoop exC3Oracle 50 3 1 10 initPageState).calls.map Prod.fst = [0, 0] ∧
    ¬ List.Nodup ((fetchCatLoop exC3Oracle 50 3 1 10 initPageState).calls.map Prod.fst) := by
  constructor
  · decide
  · decide

/-- Claim C3 amended: in every run in which no request fails, both
pagination entry points issue a request log that is contiguous (each
request starts exactly where the previous one ended, starting from skip
0 with stride equal to the issued take) and whose skip values are
strictly increasing, hence pairwise distinct.  (In runs with transient
failures the failed request is re-issued at the same skip.) -/
theorem claim3_amended_contiguous_error_free {α : Type}
    (oracle1 oracle2 : Nat → PageResult α) (bs mr mp mp2 fuel fuel2 : Nat)
    (herr1 : ∀ i, oracle1 i ≠ PageResult.err)
    (herr2 : ∀ i, oracle2 i ≠ PageResult.err) (hbs : 1 ≤ bs) :
    (contigFromB 0 (fetchCatLoop oracle1 bs mr mp fuel initPageState).calls = true ∧
     List.Pairwise (fun a b => a < b)
       ((fetchCatLoop oracle1 bs mr mp fuel initPageState).calls.map Prod.fst)) ∧
    (contigFromB 0 (fetchUrlLoop oracle2 mp2 fuel2 initPageState).calls = true ∧
     List.Pairwise (fun a b => a < b)
       ((fetchUrlLoop oracle2 mp2 fuel2 initPageState).calls.map Prod.fst)) := by
  have hcat := fetchCatLoop_inv oracle1 herr1 bs mr mp hbs fuel initPageState
    rfl rfl (by intro c hc; simp [initPageState] at hc)
  have hurl := fetchUrlLoop_inv oracle2 herr2 mp2 fuel2 initPageState
    rfl rfl (by intro c hc; simp [initPageState] at hc)
  exact ⟨⟨hcat.1, (contig_strict_mono _ 0 hcat.1 hcat.2).1⟩,
         ⟨hurl.1, (contig_strict_mono _ 0 hurl.1 hurl.2).1⟩⟩

/-- Witness for C3 amended: an error-free run of both loops at concrete
parameters. -/
theorem claim3_witness :
    (contigFromB 0 (fetchCatLoop exC3Good 5 3 12 10 initPageState).calls = true ∧
     List.Pairwise (fun a b => a < b)
       ((fetchCatLoop exC3Good 5 3 12 10 initPageState).calls.map Prod.fst)) ∧
    (contigFromB 0 (fetchUrlLoop exC3Good 12 10 initPageState).calls = true ∧
     List.Pairwise (fun a b => a < b)
       ((fetchUrlLoop exC3Good 12 10 initPageState).calls.map Prod.fst)) :=
  claim3_amended_contiguous_error_free exC3Good exC3Good 5 3 12 12 10 10
    (fun i h => by simp [exC3Good] at h) (fun i h => by simp [exC3Good] at h)
    (by omega)

/-- Claim C4: when a page response carries no authoritative count,
continuation is exactly the heuristic returnedCount == requested take;
and feeding the category controller mock pages of sizes 50, 50, 12 with
no counts ends the run with hasMore = false after the third page and
exactly 112 collected items, the three issued requests being
(0,50), (50,50), (100,50). -/
theorem claim4_heuristic_and_scenario :
    (∀ authSum heurTake dataLen : Nat,
      pageHasMore authSum heurTake dataLen none = decide (dataLen = heurTake)) ∧
    (fetchCatLoop claim4Oracle 50 3 1000 10 initPageState).allProducts.length = 112 ∧
    (fetchCatLoop claim4Oracle 50 3 1000 10 initPageState).hasMore = false ∧
    (fetchCatLoop claim4Oracle 50 3 1000 10 initPageState).calls =
      [(0, 50), (50, 50), (100, 50)] := by
  refine ⟨fun a t n => rfl, ?_, ?_, ?_⟩ <;> decide

/-- Claim C5: a category input whose every page request throws
contributes an empty result — the consecutive-failure ceiling breaks the
pagination loop, which returns what was collected (nothing) without
raising — and the orchestrator run continues with the remaining inputs
exactly as if the failed input were absent; in particular a subsequent
healthy input is still processed. -/
theorem claim5_failed_category_isolated (detOracle : String → Except Unit JSVal)
    (bs mr par : Nat) (fd : Bool) (mp fuel : Nat) (probeOk : Bool)
    (badO : Nat → PageResult (Option Item))
    (hbad : ∀ i, badO i = PageResult.err)
    (rest : List ScrapeInput) (acc : List (Option Item)) :
    (∀ mp2, fetchProductsByCategory probeOk badO bs mr mp2 fuel = []) ∧
    scrapeAcc detOracle bs mr par fd mp fuel
      (ScrapeInput.category probeOk badO :: rest) acc =
    scrapeAcc detOracle bs mr par fd mp fuel rest acc := by
  have hempty : ∀ mp2, fetchProductsByCategory probeOk badO bs mr mp2 fuel = [] := by
    intro mp2
    unfold fetchProductsByCategory
    cases probeOk
    · simp
    · simp only [if_true]
      rw [show (fetchCatLoop badO bs mr mp2 fuel initPageState).allProducts = [] from
        fetchCatLoop_all_err badO hbad bs mr mp2 fuel initPageState]
      rfl
  refine ⟨hempty, ?_⟩
  rw [scrapeAcc]
  by_cases hb : mp - acc.length = 0
  · rw [if_pos hb, scrapeAcc_stop detOracle bs mr par fd mp fuel rest acc hb]
  · rw [if_neg hb]
    simp only [collectInput, hempty, List.length_nil, if_true]

/-- Witness for C5: a run with the always-failing category first and a
healthy category second: the bad input yields [] and the run equals the
run on the healthy input alone. -/
theorem claim5_witness :
    fetchProductsByCategory true (fun _ => PageResult.err) 50 3 5 10 =
      ([] : List (Option Item)) ∧
    scrapeAcc exDetErr 50 3 1 false 5 10
      [ScrapeInput.category true (fun _ => PageResult.err),
       ScrapeInput.category true exPagesOracle] [] =
    scrapeAcc exDetErr 50 3 1 false 5 10
      [ScrapeInput.category true exPagesOracle] [] := by
  have h := claim5_failed_category_isolated exDetErr 50 3 1 false 5 10 true
    (fun _ => PageResult.err) (fun i => rfl)
    [ScrapeInput.category true exPagesOracle] []
  exact ⟨h.1 5, h.2⟩

/-- Counterexample to C6 as stated: with concurrency 0 and a non-empty
input list, the group-partition loop of the batcher (chunk, whose index
advances by the group size) makes no progress, so the batcher never
returns an output at all — in particular not one output per input. -/
theorem claim6_counterexample_zero_concurrency :
    enrichNeverReturns exDetErr 0 [some blankItem] := by
  intro fuel
  unfold fetchProductDetailsFuel
  rw [if_neg (by simp)]
  rw [chunkF_zero_diverges]

/-- Claim C6 amended: for every input list and every concurrency of at
least 1, the batcher returns exactly one output per input item — it
equals a plain map of the per-item callback — where an item with no
usable id passes through unchanged, an item whose detail call throws
passes through unchanged, and an item whose detail call returns a truthy
payload is returned merged with it under the details key. -/
theorem claim6_amended_one_output_per_input (detOracle : String → Except Unit JSVal)
    (concurrency : Nat) (hc : 1 ≤ concurrency) (products : List (Option Item)) :
    fetchProductDetails detOracle concurrency products =
      some (products.map (enrichOne detOracle)) ∧
    (products.map (enrichOne detOracle)).length = products.length ∧
    (∀ it, productIdOf it = none → enrichOne detOracle (some it) = some it) ∧
    (∀ it pid, productIdOf it = some pid → detOracle pid = Except.error () →
      enrichOne detOracle (some it) = some it) ∧
    (∀ it pid d, productIdOf it = some pid → detOracle pid = Except.ok d →
      jsTruthy d = true →
      enrichOne detOracle (some it) = some { it with details := some d }) := by
  refine ⟨fetchProductDetails_eq_map detOracle concurrency hc products,
    List.length_map _ _, ?_, ?_, ?_⟩
  · intro it h
    simp [enrichOne, h]
  · intro it pid h1 h2
    simp [enrichOne, h1, h2]
  · intro it pid d h1 h2 h3
    simp [enrichOne, h1, h2, h3]

/-- Witness for C6 amended: three items (one null) at concurrency 2 come
back unchanged, one output per input. -/
theorem claim6_witness :
    fetchProductDetails exDetErr 2 [some blankItem, none, some blankItem] =
      some [some blankItem, none, some blankItem] := by
  have h := (claim6_amended_one_output_per_input exDetErr 2 (by omega)
    [some blankItem, none, some blankItem]).1
  rw [h]
  decide

/-- Claim C7: the mapper returns null exactly on an empty (null) input
item; an exception thrown while mapping a non-empty item yields the
minimal record instead — carrying a non-empty identifier, a non-empty
name, the source tag and the error note — and the caller filters the
null results out of the mapped batch. -/
theorem claim7_mapper_null_and_error_contract :
    (∀ p : Option Item, Mapper.mapProductToPart p = none ↔ p = none) ∧
    (∀ it msg, Mapper.mapBody it = Except.error msg →
      ∃ rec, Mapper.mapProductToPart (some it) = some rec ∧
        rec.partNumber ≠ "" ∧ rec.name ≠ "" ∧ rec.source = "lkq" ∧
        ∃ op2, rec.otherParams = some op2 ∧ op2.mappingError = some msg) ∧
    (∀ products, mapProducts products =
      products.filterMap Mapper.mapProductToPart) := by
  refine ⟨?_, ?_, mapProducts_eq_filterMap⟩
  · intro p
    cases p with
    | none => simp [Mapper.mapProductToPart]
    | some it =>
      cases hb : Mapper.mapBody it <;> simp [Mapper.mapProductToPart, hb]
  · intro it msg h
    refine ⟨Mapper.minimalPart it msg, by simp [Mapper.mapProductToPart, h], ?_, ?_,
      rfl, ⟨{ rawData := some it, mappingError := some msg }, rfl, rfl⟩⟩
    · exact strOr_chain_ne _ _ "unknown" (by simp)
    · exact strOr_chain_ne _ _ "Unknown part" (by simp)

/-- Witness for C7: the null input maps to null; an item whose parsed
fitmentJson is not an array throws in fitments.map, and maps to the
minimal record with the error note. -/
theorem claim7_witness :
    Mapper.mapProductToPart none = none ∧
    (∃ rec, Mapper.mapProductToPart (some exErrItem) = some rec ∧
      rec.partNumber ≠ "" ∧ rec.name ≠ "" ∧ rec.source = "lkq" ∧
      ∃ op2, rec.otherParams = some op2 ∧
        op2.mappingError = some "fitments.map is not a function") := by
  refine ⟨(claim7_mapper_null_and_error_contract.1 none).mpr rfl, ?_⟩
  exact claim7_mapper_null_and_error_contract.2.1 exErrItem
    "fitments.map is not a function" rfl

/-- Claim C8: the two mapper implementations are not extensionally equal
on the year field of compatibility entries: on a fitment whose
SystemYear is the string 2005, mapper.js keeps the string while the copy
embedded in index.js parses it to the number 2005. -/
theorem claim8_year_inconsistency :
    ∃ p : Item,
      (Mapper.mapProductToPart (some p)).map
        (fun r => r.compatibility.map (List.map Compat.year)) =
        some (some [JSVal.str "2005"]) ∧
      (IndexCopy.mapProductToPart (some p)).map
        (fun r => r.compatibility.map (List.map Compat.year)) =
        some (some [JSVal.num 2005]) ∧
      JSVal.str "2005" ≠ JSVal.num 2005 :=
  ⟨exFitProduct, by decide, by decide, by decide⟩

/-- Counterexample to C9 as stated: the session-acquisition script's log
surfaces print the extracted cookie string verbatim — both the
Puppeteer-success line of getCookies and the .env suggestion line of
main contain the cookie value unredacted. -/
theorem claim9_counterexample_cookie_logged :
    LeaksIn (getCookiesPuppeteerSuccessLog exCookie) exCookie ∧
    LeaksIn (mainEnvSuggestionLog exCookie) exCookie := by
  constructor
  · exact ⟨"Successfully extracted cookies with Puppeteer: ", "", by decide⟩
  · exact ⟨"LKQ_COOKIES=", "", by decide⟩

/-- Claim C9 amended: the Catalog Client's request-header logging does
redact: in the sanitised header map that makeApiRequest logs, every
Cookie entry is the length placeholder (or was the empty string, which
the truthiness guard leaves alone), and every security-token header is
the length placeholder.  The cookie-extraction script, by contrast,
prints the extracted cookie verbatim by design. -/
theorem claim9_amended_client_redacts (hs : List (String × String)) :
    ∀ kv ∈ sanitizeHeaders hs,
      (kv.1 = "Cookie" → kv.2 = "" ∨
        ∃ n : Nat, kv.2 = "[COOKIE HIDDEN - LENGTH: " ++ toString n ++ "]") ∧
      (isTokenKey kv.1 = true →
        ∃ n : Nat, kv.2 = "[TOKEN HIDDEN - LENGTH: " ++ toString n ++ "]") := by
  intro kv hkv
  rcases List.mem_map.mp hkv with ⟨kv0, _, rfl⟩
  by_cases hA : kv0.1 = "Cookie" ∧ kv0.2 ≠ ""
  · rw [if_pos hA]
    constructor
    · intro _
      exact Or.inr ⟨kv0.2.length, rfl⟩
    · intro hstart
      simp only [] at hstart
      rw [hA.1] at hstart
      exact absurd hstart (by decide)
  · rw [if_neg hA]
    by_cases hB : isTokenKey kv0.1 = true
    · rw [if_pos hB]
      constructor
      · intro hk
        simp only [] at hk
        rw [hk] at hB
        exact absurd hB (by decide)
      · intro _
        exact ⟨kv0.2.length, rfl⟩
    · rw [if_neg hB]
      constructor
      · intro hk
        left
        by_contra hne
        exact hA ⟨hk, hne⟩
      · intro hstart
        exact absurd hstart hB

/-- Witness for C9 amended: sanitising a header list holding the
concrete cookie leaves only the length placeholder in the Cookie entry. -/
theorem claim9_witness :
    ("Cookie", "[COOKIE HIDDEN - LENGTH: 25]") ∈
      sanitizeHeaders [("Cookie", exCookie)] ∧
    ((("Cookie", "[COOKIE HIDDEN - LENGTH: 25]") : String × String).2 = "" ∨
      ∃ n : Nat, (("Cookie", "[COOKIE HIDDEN - LENGTH: 25]") : String × String).2 =
        "[COOKIE HIDDEN - LENGTH: " ++ toString n ++ "]") := by
  have hmem : ("Cookie", "[COOKIE HIDDEN - LENGTH: 25]") ∈
      sanitizeHeaders [("Cookie", exCookie)] := by decide
  exact ⟨hmem,
    (claim9_amended_client_redacts [("Cookie", exCookie)] _ hmem).1 rfl⟩

/-- Counterexample to C10 as stated: at concurrency 0 with a non-empty
input, the batcher never returns, so no output corresponds to any input
— the order-preservation property cannot hold for every concurrency. -/
theorem claim10_counterexample_zero_concurrency :
    enrichNeverReturns exDetOk 0 exTwoItems := by
  intro fuel
  unfold fetchProductDetailsFuel
  rw [if_neg (by simp [exTwoItems])]
  rw [show exTwoItems = (some { blankItem with id := some "A1" }) :: [none] from rfl,
    chunkF_zero_diverges]

/-- Claim C10 amended: for every concurrency of at least 1, the batcher
preserves the exact input order, not merely the length: the i-th output
item is the per-item callback applied to the i-th input item, because
the groups are consecutive slices processed in sequence and the joint
await of a group resolves in submission order. -/
theorem claim10_amended_order_preserved (detOracle : String → Except Unit JSVal)
    (concurrency : Nat) (hc : 1 ≤ concurrency)
    (products out : List (Option Item))
    (h : fetchProductDetails detOracle concurrency products = some out) :
    out.length = products.length ∧
    ∀ i (hi : i < out.length) (hi2 : i < products.length),
      out.get ⟨i, hi⟩ = enrichOne detOracle (products.get ⟨i, hi2⟩) := by
  have heq := fetchProductDetails_eq_map detOracle concurrency hc products
  rw [heq] at h
  simp only [Option.some_inj] at h
  subst h
  refine ⟨List.length_map _ _, ?_⟩
  intro i hi hi2
  simp [List.get_eq_getElem, List.getElem_map]

/-- Witness for C10 amended: a concrete two-item run at concurrency 1:
the first item is enriched in place, the null second passes through, and
the zeroth output is the enrichment of the zeroth input. -/
theorem claim10_witness :
    exTwoItemsOut.length = exTwoItems.length ∧
    exTwoItemsOut.get ⟨0, by decide⟩ = enrichOne exDetOk (exTwoItems.get ⟨0, by decide⟩) := by
  have h : fetchProductDetails exDetOk 1 exTwoItems = some exTwoItemsOut := by decide
  have hthm := claim10_amended_order_preserved exDetOk 1 (by omega)
    exTwoItems exTwoItemsOut h
  exact ⟨hthm.1, hthm.2 0 (by decide) (by decide)⟩
